import Mathlib

/-!
Verification of the trip aggregation sample: a shallow embedding of the
trip reduction and on-demand aggregation pipeline, together with proofs of
its specified properties.

The embedding covers:
* the partition key extractor and query template engine
  (`packages/trip-reduction-function/index.ts`),
* the summary writer (`packages/create-trip-summaries/index.ts`),
* the trips API backend, i.e. the trip aggregation cache read path
  (`packages/trips-api-backend/index.ts`),
* a relational semantics for the rendered finished-trips summary query,
* the summary table schema (`lib/data-reduction.ts`: partition key
  `trip_id`).

JavaScript objects that the handlers treat as string-keyed records are
modelled as association lists with JavaScript property-assignment
semantics (update in place, append when new).  Remote stores are modelled
as explicit state threaded through the handlers, and every remote call is
recorded in an effect trace so that call counts and call ordering can be
stated.
-/

set_option maxRecDepth 8192
set_option maxHeartbeats 1600000

/-! ## Association lists (JavaScript objects / key-value stores) -/

/-- Lookup of a key in an association list (first match). -/
def alistGet {α : Type} (k : String) : List (String × α) → Option α
  | [] => none
  | (k0, v) :: rest => if k0 = k then some v else alistGet k rest

/-- JavaScript property assignment / keyed store put: replace the value at
an existing key in place, append the pair when the key is new. -/
def alistPut {α : Type} (k : String) (v : α) : List (String × α) → List (String × α)
  | [] => [(k, v)]
  | (k0, v0) :: rest => if k0 = k then (k, v) :: rest else (k0, v0) :: alistPut k v rest

theorem alistGet_put_self {α : Type} (k : String) (v : α) :
    ∀ m : List (String × α), alistGet k (alistPut k v m) = some v := by
  intro m
  induction m with
  | nil => simp [alistGet, alistPut]
  | cons p rest ih =>
    obtain ⟨k0, v0⟩ := p
    by_cases h : k0 = k
    · simp [alistGet, alistPut, h]
    · simp [alistGet, alistPut, h, ih]

theorem alistGet_put_ne {α : Type} (k k' : String) (v : α) (hne : k ≠ k') :
    ∀ m : List (String × α), alistGet k' (alistPut k v m) = alistGet k' m := by
  intro m
  induction m with
  | nil => simp [alistGet, alistPut, hne]
  | cons p rest ih =>
    obtain ⟨k0, v0⟩ := p
    by_cases h : k0 = k
    · subst h
      simp [alistGet, alistPut, hne]
    · by_cases h2 : k0 = k' <;> simp [alistGet, alistPut, h, h2, ih, Ne.symm hne]

theorem alistGet_put_isSome {α : Type} (k k' : String) (v : α) (m : List (String × α))
    (h : (alistGet k' m).isSome) : (alistGet k' (alistPut k v m)).isSome := by
  by_cases hk : k = k'
  · subst hk
    simp [alistGet_put_self]
  · rwa [alistGet_put_ne k k' v hk]

/-! ## String splitting

JavaScript `String.prototype.split` with a single-character separator:
the string is cut at every occurrence of the separator, keeping empty
pieces (so `"a//b".split("/")` is `["a", "", "b"]` and `"".split("/")` is
`[""]`).  Defined by structural recursion on the character list so that
it evaluates inside the kernel. -/

/-- Worker for `jsSplit`: `acc` holds the current piece reversed. -/
def splitCharAux (c : Char) : List Char → List Char → List String
  | [], acc => [String.mk acc.reverse]
  | x :: rest, acc =>
    if x = c then String.mk acc.reverse :: splitCharAux c rest []
    else splitCharAux c rest (x :: acc)

/-- JavaScript `s.split(c)` for a single-character separator `c`. -/
def jsSplit (s : String) (c : Char) : List String :=
  splitCharAux c s.data []

/-! ## Partition key extractor (`trip-reduction-function/index.ts`, lines 26-44)

The handler initialises `rawStateMachineInput` with the five partition
names mapped to the empty string, splits the notification object key on
`/`, splits each segment on `=`, skips segments yielding fewer than two
parts, and assigns `rawStateMachineInput[name] = value` for the rest. -/

/-- `rawStateMachineInput` before the key is processed: the five partition
names preset to the empty string. -/
def initialRawInput : List (String × String) :=
  [("year", ""), ("month", ""), ("day", ""), ("hour", ""), ("minute", "")]

/-- Splitting of one `/`-separated segment of the object key on `=`: when
fewer than two parts result the segment yields nothing, otherwise it
yields `(parts[0], parts[1])`. -/
def segParse (seg : String) : Option (String × String) :=
  match jsSplit seg '=' with
  | n :: v :: _ => some (n, v)
  | _ => none

/-- Processing of one segment: skip it when its `=`-split has fewer than
two parts, otherwise assign `rawStateMachineInput[name] = value`. -/
def segStep (m : List (String × String)) (seg : String) : List (String × String) :=
  match segParse seg with
  | some (n, v) => alistPut n v m
  | none => m

/-- The extractor's loop over all segments of the key. -/
def extractSegs (segs : List String) : List (String × String) :=
  segs.foldl segStep initialRawInput

/-- Partition extraction from a storage key, as performed by the payload
preparation handler. -/
def extractKeyParams (key : String) : List (String × String) :=
  extractSegs (jsSplit key '/')

/-- The `(name, value)` pairs a list of segments assigns, in order: the
first two `=`-parts of each segment that has at least two. -/
def segAssignments (segs : List String) : List (String × String) :=
  segs.filterMap segParse

/-- The value of the rightmost assignment to `n`, if any. -/
def lastAssign (n : String) : List (String × String) → Option String
  | [] => none
  | (k, v) :: rest =>
    match lastAssign n rest with
    | some w => some w
    | none => if k = n then some v else none

/-- First-some choice with a default option. -/
def orDefault (o d : Option String) : Option String :=
  match o with
  | some v => some v
  | none => d

theorem extract_foldl_char (segs : List String) :
    ∀ (m : List (String × String)) (n : String),
      alistGet n (segs.foldl segStep m) =
        orDefault (lastAssign n (segAssignments segs)) (alistGet n m) := by
  induction segs with
  | nil => intro m n; simp [segAssignments, lastAssign, orDefault]
  | cons seg rest ih =>
    intro m n
    show alistGet n (rest.foldl segStep (segStep m seg)) = _
    rw [ih]
    cases hseg : segParse seg with
    | none =>
      simp only [segStep, hseg, segAssignments, List.filterMap_cons]
    | some p =>
      obtain ⟨a, b⟩ := p
      simp only [segStep, hseg, segAssignments, List.filterMap_cons]
      show orDefault (lastAssign n (segAssignments rest)) (alistGet n (alistPut a b m)) =
        orDefault (lastAssign n ((a, b) :: segAssignments rest)) (alistGet n m)
      cases hla : lastAssign n (segAssignments rest) with
      | some w => simp [orDefault, lastAssign, hla]
      | none =>
        by_cases hab : a = n
        · subst hab
          simp [orDefault, lastAssign, hla, alistGet_put_self]
        · simp [orDefault, lastAssign, hla, hab, alistGet_put_ne a n b hab]

/-- Characterisation of the extractor on segment lists: the value stored
under a name is the rightmost segment assignment to it, defaulting to the
preset map. -/
theorem extractSegs_char (segs : List String) (n : String) :
    alistGet n (extractSegs segs) =
      orDefault (lastAssign n (segAssignments segs)) (alistGet n initialRawInput) :=
  extract_foldl_char segs initialRawInput n

/-- A segment with fewer than two `=`-parts parses to nothing. -/
theorem segParse_eq_none (seg : String) (h : (jsSplit seg '=').length < 2) :
    segParse seg = none := by
  unfold segParse
  cases hseg : jsSplit seg '=' with
  | nil => rfl
  | cons a tl =>
    cases tl with
    | nil => rfl
    | cons b tl' =>
      rw [hseg] at h
      simp at h
      omega

/-- A segment whose `=`-split has fewer than two parts is skipped: removing
it from the segment list does not change the extractor's result. -/
theorem extractSegs_skip (pre post : List String) (seg : String)
    (h : (jsSplit seg '=').length < 2) :
    extractSegs (pre ++ seg :: post) = extractSegs (pre ++ post) := by
  have hstep : ∀ m, segStep m seg = m := by
    intro m
    unfold segStep
    rw [segParse_eq_none seg h]
  unfold extractSegs
  rw [List.foldl_append, List.foldl_append]
  simp [hstep]

/-! ## Query template engine (`trip-reduction-function/index.ts`, lines 46-81)

The handler renders two query strings over the configured table name
(environment variable `ATHENA_TABLE_NAME`), each containing one literal
placeholder, plus the partition filter expression and a formatted date
tag.  The placeholder is later filled by the orchestrator
(`lib/data-reduction.ts`) through
`States.Format($.Query, $.QueryFilterExpression)`. -/

/-- The opening brace character of the placeholder. -/
def obr : Char := Char.ofNat 123

/-- The closing brace character of the placeholder. -/
def cbr : Char := Char.ofNat 125

/-- Notification payload handed to the payload preparation handler
(`event.detail.requestParameters`). -/
structure InitialInput where
  bucketName : String
  key : String

/-- The handler's output payload for the reduction state machine. -/
structure StateMachineInput where
  FinishedTripsSummaryQuery : String
  ReducedTripsQuery : String
  QueryFilterExpression : String
  FormattedDate : String
deriving DecidableEq

/-- Static query text before the first table name interpolation. -/
def summaryQselect : String := "SELECT \n      a.deviceid as vehicle_id,\n      a.tripid as trip_id,\n      b.eventdate as start_date,\n      a.eventdate as end_date,\n      date_diff(\x27second\x27, from_iso8601_timestamp(b.eventdate), from_iso8601_timestamp(a.eventdate)) as duration,\n      (select count(1) from \""

/-- Static query text between the first and second table name
interpolations (the correlated count and the FROM clause). -/
def summaryQcount : String := "\" c where a.tripid = c.tripid) as event_count\n    FROM \""

/-- Static query text between the second and third table name
interpolations (the LEFT JOIN clause). -/
def summaryQjoin : String := "\" a\n    LEFT JOIN \""

/-- Static query text after the third table name interpolation up to the
filter placeholder. -/
def summaryQwhere : String := "\" b\n      on a.tripid = b.tripid and b.eventtype = \x27engine-start\x27\n    where \n      a.eventtype = \x27trip-finished\x27\n      and "

/-- The rendered `FinishedTripsSummaryQuery` template string, with the
table name interpolated three times and the literal `\x7b\x7d` placeholder
before the closing semicolon. -/
def finishedTripsSummaryQuery (t : String) : String :=
  summaryQselect ++ t ++ summaryQcount ++ t ++ summaryQjoin ++ t ++ summaryQwhere ++
    "\x7b\x7d" ++ ";"

/-- Static reduced-trips query text before the first table name
interpolation. -/
def reducedQhead : String := "SELECT *\n      FROM \""

/-- Static reduced-trips query text between the two table name
interpolations. -/
def reducedQin : String := "\" a\n      where tripid in (SELECT tripid \n          FROM \""

/-- Static reduced-trips query text after the second table name
interpolation up to the filter placeholder. -/
def reducedQwhere : String := "\" a\n          where a.eventtype = \x27trip-finished\x27 \n              and "

/-- Static reduced-trips query text after the placeholder. -/
def reducedQtail : String := ")\n      order by tripid, eventdate;"

/-- The rendered `ReducedTripsQuery` template string. -/
def reducedTripsQuery (t : String) : String :=
  reducedQhead ++ t ++ reducedQin ++ t ++ reducedQwhere ++ "\x7b\x7d" ++ reducedQtail

/-- One partition parameter as read back from `rawStateMachineInput`; the
five partition names are always present (preset to the empty string). -/
def rawParam (key n : String) : String :=
  (alistGet n (extractKeyParams key)).getD ""

/-- The `QueryFilterExpression`: the five partition equalities joined with
" and ". -/
def queryFilterExpression (key : String) : String :=
  "a.year = \x27" ++ rawParam key "year" ++ "\x27 and a.month = \x27" ++ rawParam key "month" ++
    "\x27 and a.day = \x27" ++ rawParam key "day" ++ "\x27 and a.hour = \x27" ++ rawParam key "hour" ++
    "\x27 and a.minute = \x27" ++ rawParam key "minute" ++ "\x27"

/-- The `FormattedDate` tag: the five partition values joined with "-". -/
def formattedDate (key : String) : String :=
  rawParam key "year" ++ "-" ++ rawParam key "month" ++ "-" ++ rawParam key "day" ++ "-" ++
    rawParam key "hour" ++ "-" ++ rawParam key "minute"

/-- The payload preparation handler: extracts the partition parameters
from the notification key and renders the state machine input. -/
def prepPayloadHandler (athenaTableName : String) (ev : InitialInput) : StateMachineInput :=
  { FinishedTripsSummaryQuery := finishedTripsSummaryQuery athenaTableName
    ReducedTripsQuery := reducedTripsQuery athenaTableName
    QueryFilterExpression := queryFilterExpression ev.key
    FormattedDate := formattedDate ev.key }

/-- Replacement of the first `\x7b\x7d` placeholder in a character list. -/
def substList (f : List Char) : List Char → List Char
  | [] => []
  | [c] => [c]
  | c :: d :: rest => if c = obr ∧ d = cbr then f ++ rest else c :: substList f (d :: rest)

/-- Models `States.Format(template, arg)` as used by the reduction state
machine in `lib/data-reduction.ts`: the single placeholder of the template
is replaced by the argument. -/
def statesFormat (template arg : String) : String :=
  String.mk (substList arg.data template.data)

theorem string_data_append (s t : String) : (s ++ t).data = s.data ++ t.data := rfl

theorem string_data_inj {s t : String} (h : s.data = t.data) : s = t := by
  cases s
  cases t
  cases h
  rfl

theorem substList_append (f b : List Char) :
    ∀ a : List Char, obr ∉ a → substList f (a ++ obr :: cbr :: b) = a ++ f ++ b := by
  intro a
  induction a with
  | nil =>
    intro _
    simp [substList]
  | cons x xs ih =>
    intro h
    have hx : x ≠ obr := fun hc => h (by simp [hc])
    have hxs : obr ∉ xs := fun hc => h (by simp [hc])
    show substList f (x :: (xs ++ obr :: cbr :: b)) = _
    cases hrest : xs ++ obr :: cbr :: b with
    | nil => simp at hrest
    | cons d rest =>
      show substList f (x :: d :: rest) = _
      unfold substList
      rw [if_neg (fun hc => hx hc.1)]
      rw [← hrest, ih hxs]
      simp

/-- A character is not in a list when the Boolean scan says so; the
Boolean form evaluates fast by `rfl` on literals. -/
theorem notMem_of_all_ne (c : Char) (l : List Char) (h : (l.all fun x => x != c) = true) :
    c ∉ l := by
  intro hm
  have := List.all_eq_true.mp h _ hm
  simp at this

/-- Substituting the filter into a template that consists of a
placeholder-free prefix, the placeholder, and a suffix yields
prefix ++ filter ++ suffix. -/
theorem statesFormat_split (pre post f : String) (hpre : obr ∉ pre.data) :
    statesFormat (pre ++ "\x7b\x7d" ++ post) f = pre ++ f ++ post := by
  apply string_data_inj
  show substList f.data ((pre ++ "\x7b\x7d" ++ post)).data = _
  have hbr : ("\x7b\x7d" : String).data = [obr, cbr] := by decide
  have h1 : ((pre ++ "\x7b\x7d" ++ post)).data = pre.data ++ obr :: cbr :: post.data := by
    rw [string_data_append, string_data_append, hbr]
    simp
  rw [h1, substList_append f.data post.data pre.data hpre]
  rw [string_data_append, string_data_append]

/-- C6: for every storage key, partition extraction maps each
`name=value` segment to the entry `name ↦ value` (the rightmost
assignment winning, starting from the preset map, so
`a=1/b=2/c=3` yields `a ↦ 1`, `b ↦ 2`, `c ↦ 3`), any segment whose
`=`-split has fewer than two parts (i.e. lacks `=`) is skipped without
affecting the result, each of year, month, day, hour, minute stays the
empty string when no segment assigns it, and extraction is a total
function (it never raises). -/
theorem partitionKeyExtraction_spec (pre post : List String) (seg key n : String) :
    ((jsSplit seg '=').length < 2 →
      extractSegs (pre ++ seg :: post) = extractSegs (pre ++ post)) ∧
    alistGet n (extractKeyParams key) =
      orDefault (lastAssign n (segAssignments (jsSplit key '/')))
        (alistGet n initialRawInput) ∧
    (lastAssign n (segAssignments (jsSplit key '/')) = none →
      n ∈ ["year", "month", "day", "hour", "minute"] →
      alistGet n (extractKeyParams key) = some "") ∧
    (alistGet "a" (extractKeyParams "a=1/b=2/c=3") = some "1" ∧
      alistGet "b" (extractKeyParams "a=1/b=2/c=3") = some "2" ∧
      alistGet "c" (extractKeyParams "a=1/b=2/c=3") = some "3" ∧
      alistGet "year" (extractKeyParams "a=1/b=2/c=3") = some "") := by
  refine ⟨fun h => extractSegs_skip pre post seg h, extractSegs_char _ n, ?_, ?_⟩
  · intro hla hn
    show alistGet n (extractSegs (jsSplit key '/')) = some ""
    rw [extractSegs_char _ n, hla]
    fin_cases hn <;> decide
  · refine ⟨?_, ?_, ?_, ?_⟩ <;> decide

theorem partitionKeyExtraction_spec_witness :
    extractSegs (["a=1"] ++ "junk" :: ["b=2"]) = extractSegs (["a=1"] ++ ["b=2"]) ∧
    alistGet "year" (extractKeyParams "a=1/b=2/c=3") = some "" ∧
    alistGet "a" (extractKeyParams "a=1/b=2/c=3") = some "1" := by
  have h := partitionKeyExtraction_spec ["a=1"] ["b=2"] "junk" "a=1/b=2/c=3" "year"
  exact ⟨h.1 (by decide), h.2.2.1 (by decide) (by decide), h.2.2.2.1⟩

/-- C7: the query template engine is deterministic (equal notification
keys give identical rendered outputs), and after substituting the filter
expression for each query's placeholder via `States.Format`, both
rendered queries embed the identical filter substring, which has the form
`a.year = 'Y' and a.month = 'M' and a.day = 'D' and a.hour = 'H' and
a.minute = 'Min'` built from the extracted partition values. -/
theorem queryTemplates_deterministic_shared_filter (t : String) (ev₁ ev₂ : InitialInput)
    (ht : obr ∉ t.data) :
    (ev₁.key = ev₂.key → prepPayloadHandler t ev₁ = prepPayloadHandler t ev₂) ∧
    (∃ p₁ q₁ p₂ q₂ : String,
      statesFormat (prepPayloadHandler t ev₁).FinishedTripsSummaryQuery
          (prepPayloadHandler t ev₁).QueryFilterExpression
        = p₁ ++ (prepPayloadHandler t ev₁).QueryFilterExpression ++ q₁ ∧
      statesFormat (prepPayloadHandler t ev₁).ReducedTripsQuery
          (prepPayloadHandler t ev₁).QueryFilterExpression
        = p₂ ++ (prepPayloadHandler t ev₁).QueryFilterExpression ++ q₂) ∧
    (prepPayloadHandler t ev₁).QueryFilterExpression =
      "a.year = \x27" ++ rawParam ev₁.key "year" ++ "\x27 and a.month = \x27" ++
        rawParam ev₁.key "month" ++ "\x27 and a.day = \x27" ++ rawParam ev₁.key "day" ++
        "\x27 and a.hour = \x27" ++ rawParam ev₁.key "hour" ++ "\x27 and a.minute = \x27" ++
        rawParam ev₁.key "minute" ++ "\x27" := by
  refine ⟨?_, ?_, rfl⟩
  · intro hk
    simp only [prepPayloadHandler, hk]
  · have hpre₁ : obr ∉ (summaryQselect ++ t ++ summaryQcount ++ t ++ summaryQjoin ++ t ++
        summaryQwhere).data := by
      intro hmem
      simp only [string_data_append, List.mem_append] at hmem
      rcases hmem with ((((((h | h) | h) | h) | h) | h) | h)
      · exact absurd h (notMem_of_all_ne _ _ rfl)
      · exact ht h
      · exact absurd h (notMem_of_all_ne _ _ rfl)
      · exact ht h
      · exact absurd h (notMem_of_all_ne _ _ rfl)
      · exact ht h
      · exact absurd h (notMem_of_all_ne _ _ rfl)
    have hpre₂ : obr ∉ (reducedQhead ++ t ++ reducedQin ++ t ++ reducedQwhere).data := by
      intro hmem
      simp only [string_data_append, List.mem_append] at hmem
      rcases hmem with ((((h | h) | h) | h) | h)
      · exact absurd h (notMem_of_all_ne _ _ rfl)
      · exact ht h
      · exact absurd h (notMem_of_all_ne _ _ rfl)
      · exact ht h
      · exact absurd h (notMem_of_all_ne _ _ rfl)
    refine ⟨summaryQselect ++ t ++ summaryQcount ++ t ++ summaryQjoin ++ t ++ summaryQwhere,
      ";", reducedQhead ++ t ++ reducedQin ++ t ++ reducedQwhere, reducedQtail, ?_, ?_⟩
    · exact statesFormat_split _ ";" _ hpre₁
    · exact statesFormat_split _ reducedQtail _ hpre₂

theorem queryTemplates_deterministic_shared_filter_witness :
    prepPayloadHandler "trip_aggregation" ⟨"bucketA", "year=2023/month=01"⟩ =
      prepPayloadHandler "trip_aggregation" ⟨"bucketB", "year=2023/month=01"⟩ ∧
    (∃ p₁ q₁ p₂ q₂ : String,
      statesFormat
          (prepPayloadHandler "trip_aggregation" ⟨"bucketA", "year=2023/month=01"⟩).FinishedTripsSummaryQuery
          (prepPayloadHandler "trip_aggregation" ⟨"bucketA", "year=2023/month=01"⟩).QueryFilterExpression
        = p₁ ++ (prepPayloadHandler "trip_aggregation" ⟨"bucketA", "year=2023/month=01"⟩).QueryFilterExpression ++ q₁ ∧
      statesFormat
          (prepPayloadHandler "trip_aggregation" ⟨"bucketA", "year=2023/month=01"⟩).ReducedTripsQuery
          (prepPayloadHandler "trip_aggregation" ⟨"bucketA", "year=2023/month=01"⟩).QueryFilterExpression
        = p₂ ++ (prepPayloadHandler "trip_aggregation" ⟨"bucketA", "year=2023/month=01"⟩).QueryFilterExpression ++ q₂) := by
  have h := queryTemplates_deterministic_shared_filter "trip_aggregation"
    ⟨"bucketA", "year=2023/month=01"⟩ ⟨"bucketB", "year=2023/month=01"⟩
    (notMem_of_all_ne _ _ rfl)
  exact ⟨h.1 rfl, h.2.1⟩

/-! ## JSON values and `JSON.parse`

The trips API backend parses each line of the selective-scan payload with
`JSON.parse`, mapping parse errors to `null`, and keeps only truthy
results.  JSON values are modelled exactly; numbers keep their sign,
integer digits, fraction digits and exponent so that JavaScript
truthiness (zero is falsy, regardless of how it is written) is faithful
without floating point arithmetic. -/

inductive Json where
  | null : Json
  | bool (b : Bool) : Json
  | num (neg : Bool) (ip : Nat) (frac : String) (exp : Int) : Json
  | str (s : String) : Json
  | arr (elems : List Json) : Json
  | obj (fields : List (String × Json)) : Json

/-- JavaScript truthiness of a JSON value: `null`, `false`, numeric zero
and the empty string are falsy; every array and object is truthy. -/
def Json.truthy : Json → Bool
  | .null => false
  | .bool b => b
  | .num _ ip frac _ => !(ip == 0 && frac.data.all fun c => c = '0')
  | .str s => s != ""
  | .arr _ => true
  | .obj _ => true

/-- JSON whitespace. -/
def isWsChar (c : Char) : Bool :=
  c = ' ' || c = '\t' || c = '\n' || c = '\r'

/-- Drops leading JSON whitespace. -/
def skipWs : List Char → List Char
  | [] => []
  | c :: rest => if isWsChar c then skipWs rest else c :: rest

/-- Longest digit prefix and the remainder. -/
def takeDigits : List Char → List Char × List Char
  | [] => ([], [])
  | c :: rest =>
    if c.isDigit then
      let (ds, r) := takeDigits rest
      (c :: ds, r)
    else ([], c :: rest)

/-- Decimal digits to a natural number. -/
def digitsToNat (acc : Nat) : List Char → Nat
  | [] => acc
  | c :: rest => digitsToNat (acc * 10 + (c.toNat - 48)) rest

/-- Optional JSON fraction part: `.digits`, empty when absent. -/
def parseFracPart : List Char → Option (List Char × List Char)
  | '.' :: rest =>
    match takeDigits rest with
    | ([], _) => none
    | (ds, r) => some (ds, r)
  | cs => some ([], cs)

/-- Optional JSON exponent part, 0 when absent. -/
def parseExpPart : List Char → Option (Int × List Char)
  | [] => some (0, [])
  | c :: rest =>
    if c = 'e' ∨ c = 'E' then
      let signed : Bool × List Char :=
        match rest with
        | s :: r => if s = '+' then (false, r) else if s = '-' then (true, r) else (false, s :: r)
        | [] => (false, [])
      match takeDigits signed.2 with
      | ([], _) => none
      | (ds, r2) =>
        some (if signed.1 then -(digitsToNat 0 ds : Int) else (digitsToNat 0 ds : Int), r2)
    else some (0, c :: rest)

/-- JSON number grammar: optional minus, integer part without leading
zeros, optional fraction, optional exponent. -/
def parseNumber (cs : List Char) : Option (Json × List Char) :=
  let start : Bool × List Char :=
    match cs with
    | c :: rest => if c = '-' then (true, rest) else (false, cs)
    | [] => (false, [])
  match takeDigits start.2 with
  | ([], _) => none
  | (ds, cs2) =>
    if 1 < ds.length ∧ ds.head? = some '0' then none
    else
      match parseFracPart cs2 with
      | none => none
      | some (frac, cs3) =>
        match parseExpPart cs3 with
        | none => none
        | some (ex, cs4) => some (.num start.1 (digitsToNat 0 ds) (String.mk frac) ex, cs4)

/-- One hexadecimal digit. -/
def hexVal (c : Char) : Option Nat :=
  if c.isDigit then some (c.toNat - 48)
  else if 'a' ≤ c ∧ c ≤ 'f' then some (c.toNat - 87)
  else if 'A' ≤ c ∧ c ≤ 'F' then some (c.toNat - 55)
  else none

/-- Body of a JSON string after the opening quote, handling escapes,
up to and excluding the closing quote. -/
def parseStringBody : Nat → List Char → Option (List Char × List Char)
  | 0, _ => none
  | _ + 1, [] => none
  | fuel + 1, c :: rest =>
    if c = '"' then some ([], rest)
    else if c = '\\' then
      match rest with
      | [] => none
      | e :: r2 =>
        let esc : Option (Char × List Char) :=
          if e = '"' then some ('"', r2)
          else if e = '\\' then some ('\\', r2)
          else if e = '/' then some ('/', r2)
          else if e = 'b' then some (Char.ofNat 8, r2)
          else if e = 'f' then some (Char.ofNat 12, r2)
          else if e = 'n' then some ('\n', r2)
          else if e = 'r' then some ('\r', r2)
          else if e = 't' then some ('\t', r2)
          else if e = 'u' then
            match r2 with
            | h1 :: h2 :: h3 :: h4 :: r3 =>
              match hexVal h1, hexVal h2, hexVal h3, hexVal h4 with
              | some a, some b, some c2, some d =>
                some (Char.ofNat (((a * 16 + b) * 16 + c2) * 16 + d), r3)
              | _, _, _, _ => none
            | _ => none
          else none
        match esc with
        | none => none
        | some (ch, r3) =>
          match parseStringBody fuel r3 with
          | none => none
          | some (s, r4) => some (ch :: s, r4)
    else if c.toNat < 32 then none
    else
      match parseStringBody fuel rest with
      | none => none
      | some (s, r4) => some (c :: s, r4)

mutual

/-- Fueled JSON value parser; the fuel dominates the nesting depth, so a
fuel of input length + 1 always suffices. -/
def parseValue : Nat → List Char → Option (Json × List Char)
  | 0, _ => none
  | fuel + 1, cs =>
    match skipWs cs with
    | [] => none
    | 'n' :: 'u' :: 'l' :: 'l' :: rest => some (.null, rest)
    | 't' :: 'r' :: 'u' :: 'e' :: rest => some (.bool true, rest)
    | 'f' :: 'a' :: 'l' :: 's' :: 'e' :: rest => some (.bool false, rest)
    | '"' :: rest =>
      match parseStringBody (rest.length + 1) rest with
      | none => none
      | some (s, r) => some (.str (String.mk s), r)
    | '[' :: rest =>
      (match skipWs rest with
       | ']' :: r2 => some (.arr [], r2)
       | cs2 =>
         match parseValue fuel cs2 with
         | none => none
         | some (v, r2) =>
           match parseArrayTail fuel r2 with
           | none => none
           | some (vs, r3) => some (.arr (v :: vs), r3))
    | c :: rest =>
      if c = obr then parseObjBody fuel rest
      else parseNumber (c :: rest)

/-- Elements of an array after the first, up to the closing bracket. -/
def parseArrayTail : Nat → List Char → Option (List Json × List Char)
  | 0, _ => none
  | fuel + 1, cs =>
    match skipWs cs with
    | ']' :: rest => some ([], rest)
    | ',' :: rest =>
      (match parseValue fuel rest with
       | none => none
       | some (v, r2) =>
         match parseArrayTail fuel r2 with
         | none => none
         | some (vs, r3) => some (v :: vs, r3))
    | _ => none

/-- Object body after the opening brace. -/
def parseObjBody : Nat → List Char → Option (Json × List Char)
  | 0, _ => none
  | fuel + 1, cs =>
    match skipWs cs with
    | [] => none
    | c :: rest =>
      if c = cbr then some (.obj [], rest)
      else
        match parseMember fuel (c :: rest) with
        | none => none
        | some (kv, r2) =>
          match parseObjTail fuel r2 with
          | none => none
          | some (kvs, r3) => some (.obj (kv :: kvs), r3)

/-- One `"key": value` member. -/
def parseMember : Nat → List Char → Option ((String × Json) × List Char)
  | 0, _ => none
  | fuel + 1, cs =>
    match skipWs cs with
    | '"' :: rest =>
      (match parseStringBody (rest.length + 1) rest with
       | none => none
       | some (k, r2) =>
         match skipWs r2 with
         | ':' :: r3 =>
           (match parseValue fuel r3 with
            | none => none
            | some (v, r4) => some ((String.mk k, v), r4))
         | _ => none)
    | _ => none

/-- Members of an object after the first, up to the closing brace. -/
def parseObjTail : Nat → List Char → Option (List (String × Json) × List Char)
  | 0, _ => none
  | fuel + 1, cs =>
    match skipWs cs with
    | [] => none
    | c :: rest =>
      if c = cbr then some ([], rest)
      else if c = ',' then
        match parseMember fuel rest with
        | none => none
        | some (kv, r2) =>
          match parseObjTail fuel r2 with
          | none => none
          | some (kvs, r3) => some (kv :: kvs, r3)
      else none

end

/-- `JSON.parse`: parses one JSON value and requires only trailing
whitespace after it. -/
def parseJson (s : String) : Option Json :=
  match parseValue (s.data.length + 1) s.data with
  | none => none
  | some (v, rest) =>
    match skipWs rest with
    | [] => some v
    | _ => none

/-- The API backend's per-line step: `try { JSON.parse(r) } catch { null }`. -/
def jsParseOrNull (s : String) : Json :=
  (parseJson s).getD .null

/-! ## Store model

The summary store (DynamoDB `TripSummariesTable`) is a keyed table of
items; its partition key attribute is named `trip_id`
(`lib/data-reduction.ts`, `tripSummaryTable`).  An item carries the
string-valued columns of the parsed summary row, the `RecordsFile`
pointer and, optionally, the `AggregationExecuted` flag (absent on items
put by the summary writer).  The object store (S3 `tripRecordsBucket`)
holds aggregated trips keyed by object key; JSON serialisation of the
stored trip is modelled as the identity.  Every remote call is recorded
as an effect. -/

/-- A summary-store item. -/
structure TripItem where
  fields : List (String × String)
  recordsFile : Option (String × String)
  aggregationExecuted : Option Bool
deriving DecidableEq

/-- An aggregated trip as stored in the object store and returned by the
API: the summary item together with the collected `Records` list. -/
structure StoredTrip where
  item : TripItem
  records : List Json

/-- One remote call made by a handler. -/
inductive Effect where
  | ddbGet (table keyName keyVal : String) : Effect
  | s3Select (bucket key expr : String) : Effect
  | s3Put (bucket key : String) (body : StoredTrip) : Effect
  | ddbUpdate (table keyName keyVal updateExpr : String) : Effect
  | s3GetObject (bucket key : String) : Effect
  | ddbBatchWrite (table : String) (items : List TripItem) : Effect

/-- The shared remote state: summary table and aggregated-trips bucket. -/
structure SysState where
  summaries : List (String × TripItem)
  objects : List (String × StoredTrip)

/-- Deployment configuration (environment variables injected by the CDK
stack): the summary table name and the aggregated-trips bucket name. -/
structure Config where
  tripSummariesTableName : String
  tripRecordsBucketName : String

/-- JavaScript-level failures surfaced by the handlers. -/
inductive JsError where
  | typeErrorUndefined : JsError
  | noSuchKey : JsError
  | validationException : JsError
deriving DecidableEq

/-- The partition key attribute name of `TripSummariesTable`
(`lib/data-reduction.ts`, lines 119-126). -/
def tripSummaryTablePartitionKey : String := "trip_id"

/-! ## Summary writer (`create-trip-summaries/index.ts`, lines 45-106)

Modelled from the parsed summary rows onward (the CSV text itself is
decoded by the external `csv-parse` collaborator): the handler attaches
the reduced-records file pointer to every row, slices the row list into
chunks of 25, and issues one `batchWrite` of put requests per chunk. -/

/-- The item put for one parsed row: the row's columns, the attached
`RecordsFile` pointer, and no `AggregationExecuted` attribute. -/
def toItem (tripFile : String × String) (row : List (String × String)) : TripItem :=
  { fields := row, recordsFile := some tripFile, aggregationExecuted := none }

/-- The partition key value an item carries, when present. -/
def itemKey (it : TripItem) : Option String :=
  alistGet "trip_id" it.fields

/-- The chunking loop: `for (i = 0; i < n; i += 25) push(slice(i, min(i+25, n)))`. -/
def chunksOf25 {α : Type} : List α → List (List α)
  | [] => []
  | x :: xs => (x :: xs).take 25 :: chunksOf25 ((x :: xs).drop 25)
termination_by l => l.length
decreasing_by simp [List.length_drop]; omega

/-- A put request replaces the whole item stored under the item's
partition key value. -/
def putItemTable (t : List (String × TripItem)) (it : TripItem) : List (String × TripItem) :=
  match itemKey it with
  | some k => alistPut k it t
  | none => t

/-- DynamoDB `batchWrite` with put requests: rejected with a validation
error unless every item carries the partition key attribute `trip_id`;
an accepted batch replaces whole items, in order. -/
def applyBatch (t : List (String × TripItem)) (items : List TripItem) :
    Except JsError (List (String × TripItem)) :=
  if items.all (fun it => (itemKey it).isSome) then .ok (items.foldl putItemTable t)
  else .error .validationException

/-- The summary writer handler, from the parsed row list onward: attach
the reduced-records file to every row, chunk by 25, and issue one
`batchWrite` per chunk (all chunks are issued together via `Promise.all`;
each valid chunk is applied to the table, and any invalid chunk makes the
overall invocation fail). -/
def createTripSummariesHandler (cfg : Config) (rows : List (List (String × String)))
    (tripFile : String × String) (st : SysState) :
    Except JsError Unit × SysState × List Effect :=
  let items := rows.map (toItem tripFile)
  let chunks := chunksOf25 items
  let effects := chunks.map fun c => Effect.ddbBatchWrite cfg.tripSummariesTableName c
  let finalTable := chunks.foldl
    (fun t c =>
      match applyBatch t c with
      | .ok t2 => t2
      | .error _ => t)
    st.summaries
  let ok := chunks.all fun c => c.all fun it => (itemKey it).isSome
  ((if ok then .ok () else .error .validationException),
    { st with summaries := finalTable }, effects)

/-! ## Trips API backend (`trips-api-backend/index.ts`, the
`GetAggregatedTrip` read path)

The handler fetches the summary item by `trip_id`; a missing item makes
the subsequent `tripSummary.AggregationExecuted` property access throw.
On the warm path it fetches the stored trip at `trips/<id>.json`.  On the
cold path it issues the selective scan against the summary's
`RecordsFile`, collects the truthy parsed lines of the streamed payload,
stores the composed trip at `trips/<id>.json`, and then attempts a
summary update that addresses the row with the key attribute name
`TripId`; DynamoDB rejects the update with a validation error whenever
that name differs from the table's partition key attribute. -/

/-- The invocation payload (`{ TripId }`). -/
structure ApiEvent where
  TripId : String

/-- One event of the selective scan's streamed payload. -/
inductive StreamEvent where
  | recordsEvent (payload : String) : StreamEvent
  | endEvent : StreamEvent

/-- The scan expression sent to the object store. -/
def selectExpression (tripId : String) : String :=
  "select  * from s3object s where s.\"tripid\" = \x27" ++ tripId ++ "\x27"

/-- Collection of the scan payload into the record list: per payload
chunk, split on newlines, drop empty lines, parse each line with
`JSON.parse` (errors giving `null`), keep truthy values; concatenate the
chunks in delivery order. -/
def collectTripRecords (payload : List StreamEvent) : List Json :=
  payload.foldl
    (fun acc e =>
      match e with
      | .recordsEvent p =>
        acc ++ ((((jsSplit p '\n').filter fun r => r ≠ "").map jsParseOrNull).filter Json.truthy)
      | .endEvent => acc)
    []

/-- The trips API backend handler.  `schemaKey` is the partition key
attribute name of the summary table as deployed; the scan's streamed
payload is an input, and the returned triple carries the result, the
final store state and the effect trace. -/
def tripsApiHandler (cfg : Config) (schemaKey : String) (ev : ApiEvent)
    (payload : List StreamEvent) (st : SysState) :
    Except JsError StoredTrip × SysState × List Effect :=
  let getEff := Effect.ddbGet cfg.tripSummariesTableName "trip_id" ev.TripId
  match alistGet ev.TripId st.summaries with
  | none => (.error .typeErrorUndefined, st, [getEff])
  | some tripSummary =>
    if tripSummary.aggregationExecuted = some true then
      let key := "trips/" ++ ev.TripId ++ ".json"
      let getObjEff := Effect.s3GetObject cfg.tripRecordsBucketName key
      match alistGet key st.objects with
      | none => (.error .noSuchKey, st, [getEff, getObjEff])
      | some obj => (.ok obj, st, [getEff, getObjEff])
    else
      match tripSummary.recordsFile with
      | none => (.error .typeErrorUndefined, st, [getEff])
      | some rf =>
        let selEff := Effect.s3Select rf.1 rf.2 (selectExpression ev.TripId)
        let enhancedTrip : StoredTrip := { item := tripSummary, records := collectTripRecords payload }
        let putKey := "trips/" ++ ev.TripId ++ ".json"
        let putEff := Effect.s3Put cfg.tripRecordsBucketName putKey enhancedTrip
        let st1 : SysState := { st with objects := alistPut putKey enhancedTrip st.objects }
        let updEff := Effect.ddbUpdate cfg.tripSummariesTableName "TripId" ev.TripId
          "set AggregationExecuted = :value"
        if "TripId" = schemaKey then
          let updatedItem :=
            match alistGet ev.TripId st1.summaries with
            | some it => { it with aggregationExecuted := some true }
            | none => { fields := [], recordsFile := none, aggregationExecuted := some true }
          (.ok enhancedTrip,
            { st1 with summaries := alistPut ev.TripId updatedItem st1.summaries },
            [getEff, selEff, putEff, updEff])
        else
          (.error .validationException, st1, [getEff, selEff, putEff, updEff])

/-- Number of effects in a trace satisfying a predicate. -/
def countEffects (p : Effect → Bool) (tr : List Effect) : Nat :=
  (tr.filter p).length

/-- Selective-scan calls. -/
def isSelectEffect : Effect → Bool
  | .s3Select _ _ _ => true
  | _ => false

/-- Object-store put calls. -/
def isPutEffect : Effect → Bool
  | .s3Put _ _ _ => true
  | _ => false

/-- Summary-store update calls. -/
def isUpdateEffect : Effect → Bool
  | .ddbUpdate _ _ _ _ => true
  | _ => false

/-- Summary-store bulk-write calls. -/
def isBatchWriteEffect : Effect → Bool
  | .ddbBatchWrite _ _ => true
  | _ => false

/-- The cache-fill invariant: a summary whose `AggregationExecuted` flag
is true has an aggregated-trip object stored at its canonical
`trips/<id>.json` location. -/
def cacheFillInv (st : SysState) : Prop :=
  ∀ id it, alistGet id st.summaries = some it → it.aggregationExecuted = some true →
    (alistGet ("trips/" ++ id ++ ".json") st.objects).isSome = true

/-! ## Chunking and writer-fold lemmas -/

theorem chunksOf25_flatten {α : Type} : ∀ l : List α, (chunksOf25 l).flatten = l := by
  intro l
  induction l using chunksOf25.induct with
  | case1 => simp [chunksOf25]
  | case2 x xs ih =>
    rw [chunksOf25]
    simp only [List.flatten_cons, ih]
    exact List.take_append_drop 25 (x :: xs)

theorem chunksOf25_length {α : Type} : ∀ l : List α, (chunksOf25 l).length = (l.length + 24) / 25 := by
  intro l
  induction l using chunksOf25.induct with
  | case1 => simp [chunksOf25]
  | case2 x xs ih =>
    rw [chunksOf25]
    simp only [List.length_cons, ih, List.length_drop]
    omega

theorem chunksOf25_chunk_le {α : Type} :
    ∀ (l : List α) (c : List α), c ∈ chunksOf25 l → c.length ≤ 25 := by
  intro l
  induction l using chunksOf25.induct with
  | case1 => intro c hc; simp [chunksOf25] at hc
  | case2 x xs ih =>
    intro c hc
    rw [chunksOf25] at hc
    rcases List.mem_cons.mp hc with h | h
    · subst h
      simp [List.length_take_le]
    · exact ih c h

theorem alistGet_foldl_putItem (items : List TripItem) :
    ∀ (t : List (String × TripItem)) (id : String) (it : TripItem),
      alistGet id (items.foldl putItemTable t) = some it →
      alistGet id t = some it ∨ it ∈ items := by
  induction items with
  | nil => intro t id it h; exact Or.inl h
  | cons x xs ih =>
    intro t id it h
    rcases ih (putItemTable t x) id it h with h2 | h2
    · unfold putItemTable at h2
      cases hk : itemKey x with
      | none => rw [hk] at h2; exact Or.inl h2
      | some k =>
        rw [hk] at h2
        by_cases hid : k = id
        · subst hid
          rw [alistGet_put_self] at h2
          exact Or.inr (by simp [← Option.some_inj.mp h2])
        · rw [alistGet_put_ne k id x hid] at h2
          exact Or.inl h2
    · exact Or.inr (List.mem_cons_of_mem x h2)

/-- The summary table application of the writer's chunk list. -/
def writerFold (chunks : List (List TripItem)) (t : List (String × TripItem)) :
    List (String × TripItem) :=
  chunks.foldl
    (fun t c =>
      match applyBatch t c with
      | .ok t2 => t2
      | .error _ => t)
    t

theorem alistGet_writerFold (chunks : List (List TripItem)) :
    ∀ (t : List (String × TripItem)) (id : String) (it : TripItem),
      alistGet id (writerFold chunks t) = some it →
      alistGet id t = some it ∨ ∃ c ∈ chunks, it ∈ c := by
  induction chunks with
  | nil => intro t id it h; exact Or.inl h
  | cons c cs ih =>
    intro t id it h
    have hstep : alistGet id (match applyBatch t c with | .ok t2 => t2 | .error _ => t) = some it →
        alistGet id t = some it ∨ it ∈ c := by
      intro h2
      unfold applyBatch at h2
      by_cases hv : c.all (fun x => (itemKey x).isSome) = true
      · rw [if_pos hv] at h2
        exact alistGet_foldl_putItem c t id it h2
      · rw [if_neg hv] at h2
        exact Or.inl h2
    rcases ih _ id it h with h2 | h2
    · rcases hstep h2 with h3 | h3
      · exact Or.inl h3
      · exact Or.inr ⟨c, List.mem_cons_self c cs, h3⟩
    · obtain ⟨c2, hc2, hit⟩ := h2
      exact Or.inr ⟨c2, List.mem_cons_of_mem c hc2, hit⟩

/-- C9: the summary writer partitions the parsed row list into consecutive
chunks of at most 25 whose concatenation restores the list, and issues
exactly one bulk write per chunk, hence ceil(n/25) writes and none when
the list is empty. -/
theorem summaryWriter_batching (cfg : Config) (rows : List (List (String × String)))
    (tripFile : String × String) (st : SysState) :
    (createTripSummariesHandler cfg rows tripFile st).2.2 =
      (chunksOf25 (rows.map (toItem tripFile))).map
        (Effect.ddbBatchWrite cfg.tripSummariesTableName) ∧
    (chunksOf25 (rows.map (toItem tripFile))).flatten = rows.map (toItem tripFile) ∧
    (∀ c ∈ chunksOf25 (rows.map (toItem tripFile)), c.length ≤ 25) ∧
    countEffects isBatchWriteEffect (createTripSummariesHandler cfg rows tripFile st).2.2 =
      (rows.length + 24) / 25 ∧
    (rows = [] → (createTripSummariesHandler cfg rows tripFile st).2.2 = []) := by
  refine ⟨rfl, chunksOf25_flatten _, fun c hc => chunksOf25_chunk_le _ c hc, ?_, ?_⟩
  · show countEffects isBatchWriteEffect
      ((chunksOf25 (rows.map (toItem tripFile))).map
        (Effect.ddbBatchWrite cfg.tripSummariesTableName)) = _
    unfold countEffects
    rw [List.filter_map]
    have hp : (isBatchWriteEffect ∘ Effect.ddbBatchWrite cfg.tripSummariesTableName) =
        fun _ => true := funext fun c => rfl
    rw [hp]
    simp [chunksOf25_length]
  · intro h
    subst h
    simp [createTripSummariesHandler, chunksOf25]

theorem summaryWriter_batching_witness :
    (createTripSummariesHandler ⟨"TripSummariesTable", "TripRecordsBucket"⟩
        [[("trip_id", "t1")], [("trip_id", "t2")]] ("rb", "rk") ⟨[], []⟩).2.2 =
      [Effect.ddbBatchWrite "TripSummariesTable"
        [toItem ("rb", "rk") [("trip_id", "t1")], toItem ("rb", "rk") [("trip_id", "t2")]]] ∧
    countEffects isBatchWriteEffect
      (createTripSummariesHandler ⟨"TripSummariesTable", "TripRecordsBucket"⟩
        [[("trip_id", "t1")], [("trip_id", "t2")]] ("rb", "rk") ⟨[], []⟩).2.2 = 1 := by
  have h := summaryWriter_batching ⟨"TripSummariesTable", "TripRecordsBucket"⟩
    [[("trip_id", "t1")], [("trip_id", "t2")]] ("rb", "rk") ⟨[], []⟩
  refine ⟨?_, h.2.2.2.1⟩
  rw [h.1]
  simp [chunksOf25]

/-- Bridge: the writer's final summary table is the chunk fold. -/
theorem writer_summaries_eq (cfg : Config) (rows : List (List (String × String)))
    (tripFile : String × String) (st : SysState) :
    (createTripSummariesHandler cfg rows tripFile st).2.1.summaries =
      writerFold (chunksOf25 (rows.map (toItem tripFile))) st.summaries := rfl

/-- A parsed summary row re-derived for trip `t1`. -/
def c1Row : List (String × String) := [("trip_id", "t1"), ("vehicle_id", "v1")]

/-- A stored summary item for `t1` whose aggregation flag is already true. -/
def c1StoredItem : TripItem :=
  { fields := [("trip_id", "t1")], recordsFile := some ("rb", "rk"),
    aggregationExecuted := some true }

/-- A store in which `t1`'s flag is true before the writer re-runs. -/
def c1InitialState : SysState := { summaries := [("t1", c1StoredItem)], objects := [] }

/-- C1 counterexample: re-running the summary writer on a result row for a
trip whose stored `AggregationExecuted` flag is true does not leave the
flag true — the whole-item put replaces the row with an item that carries
no flag at all. -/
theorem summaryWriter_resets_flag_counterexample :
    alistGet "t1" c1InitialState.summaries = some c1StoredItem ∧
    c1StoredItem.aggregationExecuted = some true ∧
    alistGet "t1" (createTripSummariesHandler ⟨"TripSummariesTable", "B"⟩ [c1Row] ("rb", "rk")
        c1InitialState).2.1.summaries =
      some { fields := c1Row, recordsFile := some ("rb", "rk"), aggregationExecuted := none } ∧
    ({ fields := c1Row, recordsFile := some ("rb", "rk"),
        aggregationExecuted := none } : TripItem).aggregationExecuted ≠ some true := by
  refine ⟨rfl, rfl, ?_, by simp⟩
  simp [createTripSummariesHandler, chunksOf25, applyBatch, putItemTable, itemKey, toItem,
    c1InitialState, c1Row, alistGet, alistPut]

/-- C1 (amended): every item the summary writer puts carries no
`AggregationExecuted` attribute, so the writer never sets the flag, and
any summary whose flag is true after a writer run was already present
unchanged before the run; consequently re-processing a row whose stored
flag is true resets the flag to absent rather than leaving it true.  The
writer never touches the object store. -/
theorem summaryWriter_never_sets_flag (cfg : Config) (rows : List (List (String × String)))
    (tripFile : String × String) (st : SysState) :
    (∀ e ∈ (createTripSummariesHandler cfg rows tripFile st).2.2, ∀ tbl items,
      e = Effect.ddbBatchWrite tbl items → ∀ it ∈ items, it.aggregationExecuted = none) ∧
    (∀ id it,
      alistGet id (createTripSummariesHandler cfg rows tripFile st).2.1.summaries = some it →
      it.aggregationExecuted = some true → alistGet id st.summaries = some it) ∧
    (createTripSummariesHandler cfg rows tripFile st).2.1.objects = st.objects := by
  refine ⟨?_, ?_, rfl⟩
  · intro e he tbl items heq it hit
    have he2 : e ∈ (chunksOf25 (rows.map (toItem tripFile))).map
        (Effect.ddbBatchWrite cfg.tripSummariesTableName) := he
    obtain ⟨c, hc, hec⟩ := List.mem_map.mp he2
    rw [← hec] at heq
    injection heq with _ hci
    rw [← hci] at hit
    have : it ∈ (chunksOf25 (rows.map (toItem tripFile))).flatten :=
      List.mem_flatten.mpr ⟨c, hc, hit⟩
    rw [chunksOf25_flatten] at this
    obtain ⟨row, _, hrow⟩ := List.mem_map.mp this
    rw [← hrow]
    rfl
  · intro id it hget hflag
    rw [writer_summaries_eq] at hget
    rcases alistGet_writerFold _ _ id it hget with h | h
    · exact h
    · obtain ⟨c, hc, hit⟩ := h
      have : it ∈ (chunksOf25 (rows.map (toItem tripFile))).flatten :=
        List.mem_flatten.mpr ⟨c, hc, hit⟩
      rw [chunksOf25_flatten] at this
      obtain ⟨row, _, hrow⟩ := List.mem_map.mp this
      rw [← hrow] at hflag
      simp [toItem] at hflag

theorem summaryWriter_never_sets_flag_witness :
    (createTripSummariesHandler ⟨"T", "B"⟩ [c1Row] ("rb", "rk") c1InitialState).2.1.objects =
      c1InitialState.objects ∧
    (toItem ("rb", "rk") c1Row).aggregationExecuted = none := by
  have h := summaryWriter_never_sets_flag ⟨"T", "B"⟩ [c1Row] ("rb", "rk") c1InitialState
  refine ⟨h.2.2, ?_⟩
  refine h.1 (Effect.ddbBatchWrite "T" [toItem ("rb", "rk") c1Row]) ?_ "T"
    [toItem ("rb", "rk") c1Row] rfl (toItem ("rb", "rk") c1Row) (by simp)
  show Effect.ddbBatchWrite "T" [toItem ("rb", "rk") c1Row] ∈
    (chunksOf25 ([c1Row].map (toItem ("rb", "rk")))).map (Effect.ddbBatchWrite "T")
  simp [chunksOf25]

/-- C3: when no summary is stored for the requested trip id, the read
request surfaces an error to the caller (the handler throws on the
missing row — the only not-found signal this path produces), the stores
are untouched, and zero selective-scan calls and zero object-store put
calls are made. -/
theorem getAggregatedTrip_notFound (cfg : Config) (schemaKey : String) (ev : ApiEvent)
    (payload : List StreamEvent) (st : SysState)
    (h : alistGet ev.TripId st.summaries = none) :
    (tripsApiHandler cfg schemaKey ev payload st).1 = .error .typeErrorUndefined ∧
    (tripsApiHandler cfg schemaKey ev payload st).2.1 = st ∧
    (tripsApiHandler cfg schemaKey ev payload st).2.2 =
      [Effect.ddbGet cfg.tripSummariesTableName "trip_id" ev.TripId] ∧
    countEffects isSelectEffect (tripsApiHandler cfg schemaKey ev payload st).2.2 = 0 ∧
    countEffects isPutEffect (tripsApiHandler cfg schemaKey ev payload st).2.2 = 0 := by
  unfold tripsApiHandler
  rw [h]
  exact ⟨rfl, rfl, rfl, rfl, rfl⟩

theorem getAggregatedTrip_notFound_witness :
    alistGet "nonexistent" (SysState.mk [] []).summaries = none ∧
    (tripsApiHandler ⟨"T", "B"⟩ tripSummaryTablePartitionKey ⟨"nonexistent"⟩ []
        (SysState.mk [] [])).1 = .error .typeErrorUndefined ∧
    countEffects isSelectEffect
      (tripsApiHandler ⟨"T", "B"⟩ tripSummaryTablePartitionKey ⟨"nonexistent"⟩ []
        (SysState.mk [] [])).2.2 = 0 ∧
    countEffects isPutEffect
      (tripsApiHandler ⟨"T", "B"⟩ tripSummaryTablePartitionKey ⟨"nonexistent"⟩ []
        (SysState.mk [] [])).2.2 = 0 := by
  have h := getAggregatedTrip_notFound ⟨"T", "B"⟩ tripSummaryTablePartitionKey ⟨"nonexistent"⟩
    [] (SysState.mk [] []) rfl
  exact ⟨rfl, h.1, h.2.2.2.1, h.2.2.2.2⟩

/-- C4: when the stored summary's `AggregationExecuted` flag is true, the
handler only fetches the object at the canonical `trips/<id>.json`
location and returns it; it performs no selective scan, no object-store
put and no summary-store update, and leaves the stores unchanged. -/
theorem getAggregatedTrip_warmPath (cfg : Config) (schemaKey : String) (ev : ApiEvent)
    (payload : List StreamEvent) (st : SysState) (it : TripItem)
    (hit : alistGet ev.TripId st.summaries = some it)
    (hflag : it.aggregationExecuted = some true) :
    (tripsApiHandler cfg schemaKey ev payload st).2.2 =
      [Effect.ddbGet cfg.tripSummariesTableName "trip_id" ev.TripId,
        Effect.s3GetObject cfg.tripRecordsBucketName ("trips/" ++ ev.TripId ++ ".json")] ∧
    (tripsApiHandler cfg schemaKey ev payload st).2.1 = st ∧
    countEffects isSelectEffect (tripsApiHandler cfg schemaKey ev payload st).2.2 = 0 ∧
    countEffects isPutEffect (tripsApiHandler cfg schemaKey ev payload st).2.2 = 0 ∧
    countEffects isUpdateEffect (tripsApiHandler cfg schemaKey ev payload st).2.2 = 0 ∧
    (∀ trip, alistGet ("trips/" ++ ev.TripId ++ ".json") st.objects = some trip →
      (tripsApiHandler cfg schemaKey ev payload st).1 = .ok trip) := by
  unfold tripsApiHandler
  rw [hit]
  dsimp only
  rw [if_pos hflag]
  cases hobj : alistGet ("trips/" ++ ev.TripId ++ ".json") st.objects with
  | none =>
    refine ⟨rfl, rfl, rfl, rfl, rfl, ?_⟩
    intro trip htrip
    cases htrip
  | some obj =>
    refine ⟨rfl, rfl, rfl, rfl, rfl, ?_⟩
    intro trip htrip
    injection htrip with htrip
    rw [htrip]

/-- Warm summary item for trip `t1`. -/
def c4Item : TripItem :=
  { fields := [("trip_id", "t1")], recordsFile := some ("rb", "rk"),
    aggregationExecuted := some true }

/-- The cached aggregated trip for `t1`. -/
def c4Stored : StoredTrip := { item := c4Item, records := [] }

/-- A warm store: flag true and the object cached at `trips/t1.json`. -/
def c4State : SysState :=
  { summaries := [("t1", c4Item)], objects := [("trips/t1.json", c4Stored)] }

theorem getAggregatedTrip_warmPath_witness :
    (tripsApiHandler ⟨"T", "B"⟩ tripSummaryTablePartitionKey ⟨"t1"⟩ [] c4State).1 =
      .ok c4Stored ∧
    countEffects isSelectEffect
      (tripsApiHandler ⟨"T", "B"⟩ tripSummaryTablePartitionKey ⟨"t1"⟩ [] c4State).2.2 = 0 ∧
    countEffects isUpdateEffect
      (tripsApiHandler ⟨"T", "B"⟩ tripSummaryTablePartitionKey ⟨"t1"⟩ [] c4State).2.2 = 0 := by
  have h := getAggregatedTrip_warmPath ⟨"T", "B"⟩ tripSummaryTablePartitionKey ⟨"t1"⟩ []
    c4State c4Item rfl rfl
  exact ⟨h.2.2.2.2.2 c4Stored rfl, h.2.2.1, h.2.2.2.2.1⟩

/-- C2: the cold-path attempt to set `AggregationExecuted` is doomed: the
update addresses the row with the key attribute name `TripId`, while the
summary table's partition key (and the key the summary was fetched under)
is `trip_id`, so the update is rejected, the invocation fails after the
object put, and the summary table — in particular the flag — is left
unchanged.  The spec's step 6 ("update the TripSummary's
aggregationExecuted field to true") therefore never succeeds. -/
theorem aggregationExecuted_update_rejected (cfg : Config) (ev : ApiEvent)
    (payload : List StreamEvent) (st : SysState) (it : TripItem) (b k : String)
    (hit : alistGet ev.TripId st.summaries = some it)
    (hcold : ¬it.aggregationExecuted = some true)
    (hrf : it.recordsFile = some (b, k)) :
    (tripsApiHandler cfg tripSummaryTablePartitionKey ev payload st).1 =
      .error .validationException ∧
    (tripsApiHandler cfg tripSummaryTablePartitionKey ev payload st).2.1.summaries =
      st.summaries ∧
    (tripsApiHandler cfg tripSummaryTablePartitionKey ev payload st).2.2 =
      [Effect.ddbGet cfg.tripSummariesTableName "trip_id" ev.TripId,
        Effect.s3Select b k (selectExpression ev.TripId),
        Effect.s3Put cfg.tripRecordsBucketName ("trips/" ++ ev.TripId ++ ".json")
          ⟨it, collectTripRecords payload⟩,
        Effect.ddbUpdate cfg.tripSummariesTableName "TripId" ev.TripId
          "set AggregationExecuted = :value"] ∧
    "TripId" ≠ tripSummaryTablePartitionKey := by
  unfold tripsApiHandler
  rw [hit]
  dsimp only
  rw [if_neg hcold, hrf]
  dsimp only
  rw [if_neg (by decide : ¬("TripId" = tripSummaryTablePartitionKey))]
  exact ⟨rfl, rfl, rfl, by decide⟩

/-- Cold summary item for trip `t1` (flag unset). -/
def c2Item : TripItem :=
  { fields := [("trip_id", "t1")], recordsFile := some ("rb", "rk"),
    aggregationExecuted := none }

/-- A store holding only the cold summary for `t1`. -/
def c2State : SysState := { summaries := [("t1", c2Item)], objects := [] }

theorem aggregationExecuted_update_rejected_witness :
    (tripsApiHandler ⟨"T", "B"⟩ tripSummaryTablePartitionKey ⟨"t1"⟩ [] c2State).1 =
      .error .validationException ∧
    (tripsApiHandler ⟨"T", "B"⟩ tripSummaryTablePartitionKey ⟨"t1"⟩ [] c2State).2.1.summaries =
      c2State.summaries := by
  have h := aggregationExecuted_update_rejected ⟨"T", "B"⟩ ⟨"t1"⟩ [] c2State c2Item "rb" "rk"
    rfl (by decide) rfl
  exact ⟨h.1, h.2.1⟩

/-! ## Cache-fill invariant and effect ordering (C5 machinery) -/

/-- In a trace without update effects, every put trivially precedes every
update. -/
theorem putBeforeUpdate_of_no_update (l : List Effect)
    (h : ∀ e ∈ l, isUpdateEffect e = false) :
    ∀ (i j : Nat) (ei ej : Effect), l[i]? = some ei → isPutEffect ei = true →
      l[j]? = some ej → isUpdateEffect ej = true → i < j := by
  intro i j ei ej _ _ hj huj
  have := h ej (List.getElem?_mem hj)
  rw [huj] at this
  cases this

/-- In a four-effect trace whose only possible put is the third effect and
whose only possible update is the fourth, every put precedes every
update. -/
theorem putBeforeUpdate_of_list4 (e0 e1 e2 e3 : Effect)
    (hp0 : isPutEffect e0 = false) (hp1 : isPutEffect e1 = false)
    (hp3 : isPutEffect e3 = false) (hu0 : isUpdateEffect e0 = false)
    (hu1 : isUpdateEffect e1 = false) (hu2 : isUpdateEffect e2 = false) :
    ∀ (i j : Nat) (ei ej : Effect), [e0, e1, e2, e3][i]? = some ei → isPutEffect ei = true →
      [e0, e1, e2, e3][j]? = some ej → isUpdateEffect ej = true → i < j := by
  intro i j ei ej hi hpi hj huj
  have hi4 : i < 4 := by
    by_contra hge
    rw [List.getElem?_eq_none (by simp; omega)] at hi
    cases hi
  have hj4 : j < 4 := by
    by_contra hge
    rw [List.getElem?_eq_none (by simp; omega)] at hj
    cases hj
  interval_cases i <;> interval_cases j <;> simp_all

/-- The trips API handler preserves the cache-fill invariant, for any
deployed partition key name. -/
theorem apiHandler_preserves_cacheFillInv (cfg : Config) (schemaKey : String) (ev : ApiEvent)
    (payload : List StreamEvent) (st : SysState) (hinv : cacheFillInv st) :
    cacheFillInv (tripsApiHandler cfg schemaKey ev payload st).2.1 := by
  unfold tripsApiHandler
  cases hsum : alistGet ev.TripId st.summaries with
  | none => exact hinv
  | some it =>
    dsimp only
    by_cases hflag : it.aggregationExecuted = some true
    · rw [if_pos hflag]
      cases hobj : alistGet ("trips/" ++ ev.TripId ++ ".json") st.objects with
      | none => exact hinv
      | some obj => exact hinv
    · rw [if_neg hflag]
      cases hrf : it.recordsFile with
      | none => exact hinv
      | some rf =>
        dsimp only
        by_cases hkey : "TripId" = schemaKey
        · rw [if_pos hkey]
          intro id it2 hget hflag2
          dsimp only at hget ⊢
          by_cases hid : ev.TripId = id
          · subst hid
            rw [alistGet_put_self]
            rfl
          · rw [alistGet_put_ne _ _ _ hid] at hget
            exact alistGet_put_isSome _ _ _ _ (hinv id it2 hget hflag2)
        · rw [if_neg hkey]
          intro id it2 hget hflag2
          dsimp only at hget ⊢
          exact alistGet_put_isSome _ _ _ _ (hinv id it2 hget hflag2)

/-- An item put by the summary writer never carries the aggregation flag. -/
theorem mem_chunks_flag_none (rows : List (List (String × String)))
    (tripFile : String × String) (c : List TripItem)
    (hc : c ∈ chunksOf25 (rows.map (toItem tripFile))) (it : TripItem) (hit : it ∈ c) :
    it.aggregationExecuted = none := by
  have hmem : it ∈ (chunksOf25 (rows.map (toItem tripFile))).flatten :=
    List.mem_flatten.mpr ⟨c, hc, hit⟩
  rw [chunksOf25_flatten] at hmem
  obtain ⟨row, _, hrow⟩ := List.mem_map.mp hmem
  rw [← hrow]
  rfl

/-- The summary writer preserves the cache-fill invariant: it never sets
the flag and never touches the object store. -/
theorem writer_preserves_cacheFillInv (cfg : Config) (rows : List (List (String × String)))
    (tripFile : String × String) (st : SysState) (hinv : cacheFillInv st) :
    cacheFillInv (createTripSummariesHandler cfg rows tripFile st).2.1 := by
  intro id it hget hflag
  have hobj : (createTripSummariesHandler cfg rows tripFile st).2.1.objects = st.objects := rfl
  rw [hobj]
  rw [writer_summaries_eq] at hget
  rcases alistGet_writerFold _ _ id it hget with h | h
  · exact hinv id it h hflag
  · obtain ⟨c, hc, hit⟩ := h
    rw [mem_chunks_flag_none rows tripFile c hc it hit] at hflag
    cases hflag

/-- C5: on the cold path the composed aggregated trip is stored at the
canonical location strictly before the summary update is attempted (in
every run, every object-store put effect precedes every summary-update
effect in the trace), and both the read path and the summary writer
preserve the cache-fill invariant: whenever `aggregationExecuted` is true
for a stored summary, the aggregated-trip object exists at that trip's
canonical location. -/
theorem coldPath_put_precedes_update_invariant (cfg : Config) (schemaKey : String)
    (ev : ApiEvent) (payload : List StreamEvent) (st : SysState)
    (rows : List (List (String × String))) (tripFile : String × String)
    (hinv : cacheFillInv st) :
    (∀ (i j : Nat) (ei ej : Effect),
      (tripsApiHandler cfg schemaKey ev payload st).2.2[i]? = some ei →
      isPutEffect ei = true →
      (tripsApiHandler cfg schemaKey ev payload st).2.2[j]? = some ej →
      isUpdateEffect ej = true → i < j) ∧
    cacheFillInv (tripsApiHandler cfg schemaKey ev payload st).2.1 ∧
    cacheFillInv (createTripSummariesHandler cfg rows tripFile st).2.1 := by
  refine ⟨?_, apiHandler_preserves_cacheFillInv cfg schemaKey ev payload st hinv,
    writer_preserves_cacheFillInv cfg rows tripFile st hinv⟩
  unfold tripsApiHandler
  cases hsum : alistGet ev.TripId st.summaries with
  | none =>
    refine putBeforeUpdate_of_no_update _ ?_
    intro e he
    rcases List.mem_singleton.mp he with h
    rw [h]
    rfl
  | some it =>
    dsimp only
    by_cases hflag : it.aggregationExecuted = some true
    · rw [if_pos hflag]
      cases hobj : alistGet ("trips/" ++ ev.TripId ++ ".json") st.objects with
      | none =>
        refine putBeforeUpdate_of_no_update _ ?_
        intro e he
        rcases List.mem_cons.mp he with h | h
        · rw [h]; rfl
        · rcases List.mem_singleton.mp h with h2; rw [h2]; rfl
      | some obj =>
        refine putBeforeUpdate_of_no_update _ ?_
        intro e he
        rcases List.mem_cons.mp he with h | h
        · rw [h]; rfl
        · rcases List.mem_singleton.mp h with h2; rw [h2]; rfl
    · rw [if_neg hflag]
      cases hrf : it.recordsFile with
      | none =>
        refine putBeforeUpdate_of_no_update _ ?_
        intro e he
        rcases List.mem_singleton.mp he with h
        rw [h]
        rfl
      | some rf =>
        dsimp only
        by_cases hkey : "TripId" = schemaKey
        · rw [if_pos hkey]
          exact putBeforeUpdate_of_list4 _ _ _ _ rfl rfl rfl rfl rfl rfl
        · rw [if_neg hkey]
          exact putBeforeUpdate_of_list4 _ _ _ _ rfl rfl rfl rfl rfl rfl

theorem coldPath_put_precedes_update_invariant_witness :
    (2 : Nat) < 3 ∧
    cacheFillInv (tripsApiHandler ⟨"T", "B"⟩ tripSummaryTablePartitionKey ⟨"t1"⟩ []
      c2State).2.1 := by
  have hinv : cacheFillInv c2State := by
    intro id it hget hflag
    by_cases hid : ("t1" : String) = id
    · simp [c2State, alistGet, hid] at hget
      rw [← hget] at hflag
      exact absurd hflag (by decide)
    · simp [c2State, alistGet, hid] at hget
  have h := coldPath_put_precedes_update_invariant ⟨"T", "B"⟩ tripSummaryTablePartitionKey
    ⟨"t1"⟩ [] c2State [] ("rb", "rk") hinv
  refine ⟨?_, h.2.1⟩
  exact h.1 2 3
    (Effect.s3Put "B" "trips/t1.json" ⟨c2Item, []⟩)
    (Effect.ddbUpdate "T" "TripId" "t1" "set AggregationExecuted = :value")
    rfl rfl rfl rfl

/-! ## Cold-path record collection (C10 machinery) -/

/-- All lines delivered by the scan payload, in delivery order. -/
def payloadLines (payload : List StreamEvent) : List String :=
  payload.flatMap fun e =>
    match e with
    | .recordsEvent p => jsSplit p '\n'
    | .endEvent => []

/-- The fate of one line: kept exactly when it is nonempty and parses to
a truthy JSON value. -/
def keepLine (s : String) : Option Json :=
  if s = "" then none
  else
    match parseJson s with
    | some v => if v.truthy then some v else none
    | none => none

theorem lines_pipeline (ls : List String) :
    ((ls.filter fun r => r ≠ "").map jsParseOrNull).filter Json.truthy =
      ls.filterMap keepLine := by
  induction ls with
  | nil => rfl
  | cons s rest ih =>
    by_cases hs : s = ""
    · subst hs
      simp [keepLine]
      simpa using ih
    · cases hp : parseJson s with
      | none =>
        have hnull : jsParseOrNull s = .null := by simp [jsParseOrNull, hp]
        simp [hs, hnull, keepLine, hp, Json.truthy]
        simpa using ih
      | some v =>
        have hv : jsParseOrNull s = v := by simp [jsParseOrNull, hp]
        cases ht : v.truthy
        · simp [hs, hv, keepLine, hp, ht]
          simpa using ih
        · simp [hs, hv, keepLine, hp, ht]
          simpa using ih

theorem collect_go (payload : List StreamEvent) :
    ∀ acc : List Json,
      payload.foldl
        (fun acc e =>
          match e with
          | .recordsEvent p =>
            acc ++ ((((jsSplit p '\n').filter fun r => r ≠ "").map jsParseOrNull).filter Json.truthy)
          | .endEvent => acc)
        acc
      = acc ++ (payloadLines payload).filterMap keepLine := by
  induction payload with
  | nil => intro acc; simp [payloadLines]
  | cons e rest ih =>
    intro acc
    cases e with
    | recordsEvent p =>
      show rest.foldl _ (acc ++ _) = _
      rw [ih, lines_pipeline]
      simp [payloadLines, List.filterMap_append, List.append_assoc]
    | endEvent =>
      show rest.foldl _ acc = _
      rw [ih]
      simp [payloadLines]

/-- The collected record list is the payload's lines, each kept exactly
when it parses to a truthy JSON value, in delivery order. -/
theorem collectTripRecords_eq (payload : List StreamEvent) :
    collectTripRecords payload = (payloadLines payload).filterMap keepLine := by
  have h := collect_go payload []
  simpa [collectTripRecords] using h

/-- Dropped lines change nothing in the kept list. -/
theorem filterMap_keepLine_junk (s : String)
    (h : s = "" ∨ (jsParseOrNull s).truthy = false) (ls1 ls2 : List String) :
    (ls1 ++ s :: ls2).filterMap keepLine = (ls1 ++ ls2).filterMap keepLine := by
  have hk : keepLine s = none := by
    rcases h with h | h
    · simp [keepLine, h]
    · by_cases hs : s = ""
      · simp [keepLine, hs]
      · cases hp : parseJson s with
        | none => simp [keepLine, hs, hp]
        | some v =>
          have hv : v.truthy = false := by simpa [jsParseOrNull, hp] using h
          simp [keepLine, hs, hp, hv]
  simp [List.filterMap_append, hk]

/-- The handler's entire observable behaviour depends on the scan payload
only through the collected record list. -/
theorem apiHandler_payload_via_records (cfg : Config) (schemaKey : String) (ev : ApiEvent)
    (st : SysState) (payload payload' : List StreamEvent)
    (h : collectTripRecords payload' = collectTripRecords payload) :
    tripsApiHandler cfg schemaKey ev payload' st =
      tripsApiHandler cfg schemaKey ev payload st := by
  unfold tripsApiHandler
  rw [h]

/-- C10 counterexample: the payload line `0` parses successfully as JSON,
yet the composed aggregated trip's record list is empty — the handler
drops successfully parsed falsy values (here the number 0), so the
records are not exactly the successfully parsed lines. -/
theorem coldPath_records_counterexample :
    parseJson "0" = some (Json.num false 0 "" 0) ∧
    (Json.num false 0 "" 0).truthy = false ∧
    alistGet "trips/t1.json"
      (tripsApiHandler ⟨"T", "B"⟩ tripSummaryTablePartitionKey ⟨"t1"⟩
        [.recordsEvent "0"] c2State).2.1.objects =
      some ⟨c2Item, []⟩ := by
  exact ⟨rfl, rfl, rfl⟩

/-- C10 (amended): on the cold path, every line that is empty, fails to
parse as JSON, or parses to a falsy JSON value (null, false, numeric
zero, empty string) is silently dropped — parse failures are mapped to
null and removed by the same truthiness filter, never raising — and the
composed aggregated trip's record list contains exactly the lines that
parse to truthy JSON values, in delivery order; dropped lines have no
effect on any part of the handler's behaviour. -/
theorem coldPath_records_filtering (cfg : Config) (ev : ApiEvent)
    (payload : List StreamEvent) (st : SysState) (it : TripItem) (b k : String)
    (hit : alistGet ev.TripId st.summaries = some it)
    (hcold : ¬it.aggregationExecuted = some true)
    (hrf : it.recordsFile = some (b, k)) :
    alistGet ("trips/" ++ ev.TripId ++ ".json")
      (tripsApiHandler cfg tripSummaryTablePartitionKey ev payload st).2.1.objects =
      some ⟨it, (payloadLines payload).filterMap keepLine⟩ ∧
    (∀ (s : String) (ls1 ls2 : List String), s = "" ∨ (jsParseOrNull s).truthy = false →
      (ls1 ++ s :: ls2).filterMap keepLine = (ls1 ++ ls2).filterMap keepLine) ∧
    (∀ payload' : List StreamEvent, collectTripRecords payload' = collectTripRecords payload →
      tripsApiHandler cfg tripSummaryTablePartitionKey ev payload' st =
        tripsApiHandler cfg tripSummaryTablePartitionKey ev payload st) := by
  refine ⟨?_, fun s ls1 ls2 h => filterMap_keepLine_junk s h ls1 ls2,
    fun p' h => apiHandler_payload_via_records cfg tripSummaryTablePartitionKey ev st payload p' h⟩
  unfold tripsApiHandler
  rw [hit]
  dsimp only
  rw [if_neg hcold, hrf]
  dsimp only
  rw [if_neg (by decide : ¬("TripId" = tripSummaryTablePartitionKey))]
  dsimp only
  rw [alistGet_put_self, collectTripRecords_eq]

theorem coldPath_records_filtering_witness :
    alistGet "trips/t1.json"
      (tripsApiHandler ⟨"T", "B"⟩ tripSummaryTablePartitionKey ⟨"t1"⟩
        [.recordsEvent "garbage\n\n\x7b\"a\":1\x7d"] c2State).2.1.objects =
      some ⟨c2Item,
        (payloadLines [.recordsEvent "garbage\n\n\x7b\"a\":1\x7d"]).filterMap keepLine⟩ := by
  exact (coldPath_records_filtering ⟨"T", "B"⟩ ⟨"t1"⟩
    [.recordsEvent "garbage\n\n\x7b\"a\":1\x7d"] c2State c2Item "rb" "rk" rfl (by decide) rfl).1

/-! ## Relational semantics of the rendered finished-trips summary query
(C8)

The rendered `FinishedTripsSummaryQuery` text reads, over the event
table:

* `FROM table a ... where a.eventtype = 'trip-finished' and <partition
  filter on a>` — the driving rows;
* `LEFT JOIN table b on a.tripid = b.tripid and b.eventtype =
  'engine-start'` — the matching start events, `null` when none exists;
* `date_diff('second', from_iso8601_timestamp(b.eventdate),
  from_iso8601_timestamp(a.eventdate)) as duration`;
* `(select count(1) from table c where a.tripid = c.tripid) as
  event_count` — a correlated count over the whole table, with no
  partition condition;
* `b.eventdate as start_date`, `a.eventdate as end_date`,
  `a.deviceid as vehicle_id`, `a.tripid as trip_id`.

The evaluator below is that query's relational meaning on a table of
rows. -/

/-- Days since 1970-01-01 of a proleptic-Gregorian civil date. -/
def daysFromCivil (y : Int) (m d : Nat) : Int :=
  let y2 : Int := if m ≤ 2 then y - 1 else y
  let era : Int := y2.fdiv 400
  let yoe : Int := y2 - era * 400
  let mp : Int := if 2 < m then (m : Int) - 3 else (m : Int) + 9
  let doy : Int := (153 * mp + 2).fdiv 5 + (d : Int) - 1
  let doe : Int := yoe * 365 + yoe.fdiv 4 - yoe.fdiv 100 + doy
  era * 146097 + doe - 719468

/-- A decimal numeral (all digits, nonempty). -/
def decNat? (s : String) : Option Nat :=
  if s.data ≠ [] ∧ s.data.all Char.isDigit then some (digitsToNat 0 s.data) else none

/-- Epoch milliseconds of an ISO-8601 timestamp in the producer's format
`YYYY-MM-DDTHH:MM:SS[.fff]Z` (the shape `Date.toISOString` emits for
every event date); models `from_iso8601_timestamp` on the record
format. -/
def fromIso8601Millis (s : String) : Option Int :=
  match jsSplit s 'T' with
  | [datePart, timePart] =>
    (match jsSplit datePart '-' with
     | [ys, ms, ds] =>
       (match decNat? ys, decNat? ms, decNat? ds with
        | some y, some mo, some d =>
          if 1 ≤ mo ∧ mo ≤ 12 ∧ 1 ≤ d ∧ d ≤ 31 then
            match jsSplit timePart 'Z' with
            | [hms, ""] =>
              (match jsSplit hms ':' with
               | [hs, mins, secs] =>
                 (match decNat? hs, decNat? mins with
                  | some h, some mi =>
                    if h ≤ 23 ∧ mi ≤ 59 then
                      match jsSplit secs '.' with
                      | [ss] =>
                        (match decNat? ss with
                         | some sec =>
                           if sec ≤ 60 then
                             some ((daysFromCivil y mo d * 86400 +
                               ((h * 3600 + mi * 60 + sec : Nat) : Int)) * 1000)
                           else none
                         | none => none)
                      | [ss, fs] =>
                        (match decNat? ss, decNat? fs with
                         | some sec, some frac =>
                           if sec ≤ 60 ∧ fs.length = 3 then
                             some ((daysFromCivil y mo d * 86400 +
                               ((h * 3600 + mi * 60 + sec : Nat) : Int)) * 1000 + frac)
                           else none
                         | _, _ => none)
                      | _ => none
                    else none
                  | _, _ => none)
               | _ => none)
            | _ => none
          else none
        | _, _, _ => none)
     | _ => none)
  | _ => none

/-- `date_diff('second', t1, t2)`: the elapsed milliseconds divided by
1000, truncated toward zero — the whole-second difference from the first
timestamp to the second. -/
def dateDiffSecond (startDate endDate : String) : Option Int :=
  match fromIso8601Millis startDate, fromIso8601Millis endDate with
  | some a, some b => some ((b - a).tdiv 1000)
  | _, _ => none

/-- One row of the partitioned event table as the query sees it: the
event columns it reads plus the five partition columns. -/
structure AthenaRow where
  deviceid : String
  tripid : String
  eventdate : String
  eventtype : String
  year : String
  month : String
  day : String
  hour : String
  minute : String
deriving DecidableEq

/-- The substituted partition filter values (one reduction cycle). -/
structure PartitionFilter where
  year : String
  month : String
  day : String
  hour : String
  minute : String
deriving DecidableEq

/-- The substituted `QueryFilterExpression` predicate
`a.year = 'Y' and ... and a.minute = 'Min'` applied to row `a`. -/
def matchesPartitionFilter (f : PartitionFilter) (a : AthenaRow) : Bool :=
  a.year = f.year && a.month = f.month && a.day = f.day && a.hour = f.hour &&
    a.minute = f.minute

/-- The LEFT JOIN condition `a.tripid = b.tripid and b.eventtype =
'engine-start'`. -/
def isStartEventFor (a b : AthenaRow) : Bool :=
  b.tripid = a.tripid && b.eventtype = "engine-start"

/-- One output row of the finished-trips summary query. -/
structure SummaryQueryRow where
  vehicle_id : String
  trip_id : String
  start_date : Option String
  end_date : String
  duration : Option Int
  event_count : Nat
deriving DecidableEq

/-- The SELECT list applied to a joined pair: left row `a`, optional
right row `b`. -/
def summaryRowFor (table : List AthenaRow) (a : AthenaRow) (b : Option AthenaRow) :
    SummaryQueryRow :=
  { vehicle_id := a.deviceid
    trip_id := a.tripid
    start_date := b.map (·.eventdate)
    end_date := a.eventdate
    duration := b.bind fun bb => dateDiffSecond bb.eventdate a.eventdate
    event_count := (table.filter fun c => c.tripid = a.tripid).length }

/-- LEFT JOIN of one left row against its matching start events: one
null-extended pair when no row matches, one pair per match otherwise. -/
def leftJoinStart (table : List AthenaRow) (a : AthenaRow) :
    List (AthenaRow × Option AthenaRow) :=
  match table.filter (isStartEventFor a) with
  | [] => [(a, none)]
  | bs => bs.map fun b => (a, some b)

/-- The rendered finished-trips summary query evaluated on a table:
LEFT JOIN, then the WHERE clause on the left row, then the SELECT
list. -/
def runFinishedTripsSummaryQuery (table : List AthenaRow) (f : PartitionFilter) :
    List SummaryQueryRow :=
  ((table.flatMap (leftJoinStart table)).filter
      fun p => p.1.eventtype = "trip-finished" && matchesPartitionFilter f p.1).map
    fun p => summaryRowFor table p.1 p.2

/-- C8: every output row of the finished-trips summary query stems from a
TRIP_FINISHED row inside the filtered partitions; a driving row with no
matching ENGINE_START row yields exactly one output row with null
start-date and null duration, and each matching ENGINE_START row yields
an output row whose duration is the whole-second difference from the
start event's date to the finish event's date; the event count is the
correlated count of all table rows sharing the tripId, with no partition
restriction. -/
theorem finishedTripsSummaryQuery_semantics (table : List AthenaRow) (f : PartitionFilter) :
    (∀ r ∈ runFinishedTripsSummaryQuery table f,
      ∃ a, a ∈ table ∧ a.eventtype = "trip-finished" ∧ matchesPartitionFilter f a = true ∧
        r.vehicle_id = a.deviceid ∧ r.trip_id = a.tripid ∧ r.end_date = a.eventdate ∧
        r.event_count = (table.filter fun c => c.tripid = a.tripid).length ∧
        ((r.start_date = none ∧ r.duration = none ∧
            ∀ b ∈ table, isStartEventFor a b = false) ∨
          (∃ b, b ∈ table ∧ isStartEventFor a b = true ∧ r.start_date = some b.eventdate ∧
            r.duration = dateDiffSecond b.eventdate a.eventdate))) ∧
    (∀ a ∈ table, a.eventtype = "trip-finished" → matchesPartitionFilter f a = true →
      ((∀ b ∈ table, isStartEventFor a b = false) →
        summaryRowFor table a none ∈ runFinishedTripsSummaryQuery table f) ∧
      (∀ b ∈ table, isStartEventFor a b = true →
        summaryRowFor table a (some b) ∈ runFinishedTripsSummaryQuery table f)) := by
  constructor
  · intro r hr
    unfold runFinishedTripsSummaryQuery at hr
    rw [List.mem_map] at hr
    obtain ⟨p, hp, hrp⟩ := hr
    rw [List.mem_filter] at hp
    obtain ⟨hpj, hcond⟩ := hp
    rw [List.mem_flatMap] at hpj
    obtain ⟨a, hat, hpa⟩ := hpj
    unfold leftJoinStart at hpa
    have hcond2 : p.1.eventtype = "trip-finished" ∧ matchesPartitionFilter f p.1 = true := by
      simpa using hcond
    cases hbs : table.filter (isStartEventFor a) with
    | nil =>
      rw [hbs] at hpa
      have hpeq : p = (a, none) := List.mem_singleton.mp hpa
      subst hpeq
      refine ⟨a, hat, hcond2.1, hcond2.2, ?_⟩
      rw [← hrp]
      refine ⟨rfl, rfl, rfl, rfl, Or.inl ⟨rfl, rfl, ?_⟩⟩
      intro b hb
      have := List.filter_eq_nil_iff.mp hbs b hb
      simpa using this
    | cons b0 bs' =>
      rw [hbs] at hpa
      rw [List.mem_map] at hpa
      obtain ⟨b, hbmem, hpb⟩ := hpa
      rw [← hbs] at hbmem
      rw [List.mem_filter] at hbmem
      subst hpb
      refine ⟨a, hat, hcond2.1, hcond2.2, ?_⟩
      rw [← hrp]
      exact ⟨rfl, rfl, rfl, rfl, Or.inr ⟨b, hbmem.1, hbmem.2, rfl, rfl⟩⟩
  · intro a hat hft hmatch
    constructor
    · intro hnone
      unfold runFinishedTripsSummaryQuery
      rw [List.mem_map]
      refine ⟨(a, none), ?_, rfl⟩
      rw [List.mem_filter]
      refine ⟨?_, by simp [hft, hmatch]⟩
      rw [List.mem_flatMap]
      refine ⟨a, hat, ?_⟩
      unfold leftJoinStart
      have hbs : table.filter (isStartEventFor a) = [] := by
        rw [List.filter_eq_nil_iff]
        intro b hb
        simp [hnone b hb]
      rw [hbs]
      exact List.mem_singleton_self _
    · intro b hb hstart
      unfold runFinishedTripsSummaryQuery
      rw [List.mem_map]
      refine ⟨(a, some b), ?_, rfl⟩
      rw [List.mem_filter]
      refine ⟨?_, by simp [hft, hmatch]⟩
      rw [List.mem_flatMap]
      refine ⟨a, hat, ?_⟩
      unfold leftJoinStart
      have hbmem : b ∈ table.filter (isStartEventFor a) := List.mem_filter.mpr ⟨hb, hstart⟩
      cases hbs : table.filter (isStartEventFor a) with
      | nil => rw [hbs] at hbmem; cases hbmem
      | cons b0 bs' =>
        rw [hbs] at hbmem
        rw [List.mem_map]
        exact ⟨b, hbmem, rfl⟩

/-- An ENGINE_START row for trip `t1`. -/
def c8Start : AthenaRow :=
  { deviceid := "v1", tripid := "t1", eventdate := "2023-01-02T03:04:00.000Z",
    eventtype := "engine-start", year := "2023", month := "01", day := "02",
    hour := "03", minute := "04" }

/-- A KEEP_ALIVE row for trip `t1` in another partition minute. -/
def c8Keep : AthenaRow :=
  { deviceid := "v1", tripid := "t1", eventdate := "2023-01-02T03:05:00.000Z",
    eventtype := "keep-alive", year := "2023", month := "01", day := "02",
    hour := "03", minute := "05" }

/-- The TRIP_FINISHED row for trip `t1`. -/
def c8Finish : AthenaRow :=
  { deviceid := "v1", tripid := "t1", eventdate := "2023-01-02T03:06:00.000Z",
    eventtype := "trip-finished", year := "2023", month := "01", day := "02",
    hour := "03", minute := "06" }

/-- A three-event table for one trip. -/
def c8Table : List AthenaRow := [c8Start, c8Keep, c8Finish]

/-- The reduction cycle's filter values. -/
def c8Filter : PartitionFilter :=
  { year := "2023", month := "01", day := "02", hour := "03", minute := "06" }

theorem finishedTripsSummaryQuery_semantics_witness :
    summaryRowFor c8Table c8Finish (some c8Start) ∈
      runFinishedTripsSummaryQuery c8Table c8Filter ∧
    (summaryRowFor c8Table c8Finish (some c8Start)).duration = some 120 ∧
    (summaryRowFor c8Table c8Finish (some c8Start)).event_count = 3 := by
  have h := (finishedTripsSummaryQuery_semantics c8Table c8Filter).2 c8Finish
    (by decide) rfl (by decide)
  exact ⟨h.2 c8Start (by decide) (by decide), by decide, by decide⟩
